import Mathlib

/-!
Shallow embedding of the `mbus` M-Bus telegram parser
(`src/lib.rs`, `src/address.rs`, `src/control.rs`, `src/telegram.rs`).

Bytes are modelled as `Nat` (each byte of a real input is `< 256`);
8-bit wraparound arithmetic is written with an explicit `% 256`.
The nom streaming combinators used by the source are inlined:
`number::streaming::u8` reads one byte or yields `Incomplete(1)`;
`bytes::streaming::tag([c])` yields `Incomplete(1)` on empty input and an
`Error`-level mismatch otherwise; `bytes::streaming::take(n)` yields
`Incomplete(n - len)` when fewer than `n` bytes remain; `cut` raises an
`Error`-level failure to `Failure` level and leaves `Incomplete` alone;
`alt` tries the next alternative only on `Error`-level failures.

`payload_len` is a Rust `usize` and the source decrements it with
`payload_len -= 1`; under the default (debug) overflow checks a decrement
at 0 panics, which the model renders as the distinguished outcome
`panicked` (in release builds the same underflow wraps to `2^64 - 1`).
-/

namespace Mbus

/-- The M-Bus error enum from `src/lib.rs`. `Incomplete` carries
`Option<NonZeroUsize>`, modelled as `Option Nat`. -/
inductive Error where
  | InvalidStartCharacter : Error
  | InvalidFormat : Error
  | Incomplete : Option Nat → Error
  | ChecksumMismatch : Error
deriving DecidableEq, Repr

/-- A nom error: `nom::Err` with `Error`/`Failure` levels and
`Incomplete(Needed)` (`Needed::Unknown ↦ none`, `Needed::Size n ↦ some n`). -/
inductive NomErr where
  | error : Error → NomErr
  | failure : Error → NomErr
  | incomplete : Option Nat → NomErr
deriving DecidableEq, Repr

/-- The M-Bus address field from `src/address.rs`. -/
inductive Address where
  | Unconfigured : Address
  | Configured : Nat → Address
  | AddressingPerformedInNetworkLayer : Address
  | Broadcast : Address
  | Reserved : Address
deriving DecidableEq, Repr

/-- `impl From<u8> for Address` (`src/address.rs`): the match on
`0`, `1..=250`, `251 | 252`, `253`, `254 | 255`. (`from` is a Lean
keyword, hence the name `fromByte`.) -/
def Address.fromByte (address : Nat) : Address :=
  if address = 0 then .Unconfigured
  else if address ≤ 250 then .Configured address
  else if address = 251 ∨ address = 252 then .Reserved
  else if address = 253 then .AddressingPerformedInNetworkLayer
  else .Broadcast

/-- The M-Bus control field from `src/control.rs`. -/
inductive Control where
  | SndNke : Control
  | SndUd : Bool → Control
  | ReqUd1 : Bool → Control
  | ReqUd2 : Bool → Control
  | RspUd : Bool → Bool → Control
deriving DecidableEq, Repr

/-- `impl TryFrom<u8> for Control` (`src/control.rs`): the eleven exact bit
patterns; any other byte is returned as the error value. -/
def Control.tryFrom (control : Nat) : Except Nat Control :=
  if control = 0b01000000 then .ok .SndNke
  else if control = 0b01010011 then .ok (.SndUd false)
  else if control = 0b01110011 then .ok (.SndUd true)
  else if control = 0b01011011 then .ok (.ReqUd1 false)
  else if control = 0b01111011 then .ok (.ReqUd1 true)
  else if control = 0b01011010 then .ok (.ReqUd2 false)
  else if control = 0b01111010 then .ok (.ReqUd2 true)
  else if control = 0b00001000 then .ok (.RspUd false false)
  else if control = 0b00011000 then .ok (.RspUd false true)
  else if control = 0b00101000 then .ok (.RspUd true false)
  else if control = 0b00111000 then .ok (.RspUd true true)
  else .error control

/-- The M-Bus telegram from `src/telegram.rs`; `user_data` is the borrowed
byte slice, modelled by its byte list. -/
inductive Telegram where
  | SingleCharacter : Telegram
  | ShortFrame : Control → Address → Telegram
  | ControlFrame : Control → Address → Nat → Telegram
  | LongFrame : Control → Address → Nat → List Nat → Telegram
deriving DecidableEq, Repr

/-- Result of one internal nom parser (`IResult<&[u8], Telegram, Error>`),
with the extra outcome `panicked` for the `usize` underflow of
`payload_len -= 1` (debug overflow checks). -/
inductive PRes where
  | ok : List Nat → Telegram → PRes
  | err : NomErr → PRes
  | panicked : PRes
deriving DecidableEq, Repr

/-- `u8::wrapping_add`. -/
def wadd (x y : Nat) : Nat := (x + y) % 256

/-- The checksum loop `for &value in payload { calculated_checksum =
calculated_checksum.wrapping_add(value) }`. -/
def checksumFold (init : Nat) (payload : List Nat) : Nat :=
  payload.foldl wadd init

/-- Tail of `Telegram::parse_payload` after the control/address/
control-information bytes have been read: `take(payload_len)`, the checksum
loop, `cut(u8)` for the checksum byte, `cut(tag([0x16]))` for the stop
character, the checksum comparison, and classification. -/
def finishPayload (control : Control) (address : Address) (ci : Option Nat)
    (cks : Nat) (payload_len : Nat) (input : List Nat) : PRes :=
  if payload_len ≤ input.length then
    match input.drop payload_len with
    | [] => .err (.incomplete (some 1))
    | checksum :: rest =>
      match rest with
      | [] => .err (.incomplete (some 1))
      | stop :: rest =>
        if stop = 0x16 then
          if checksumFold cks (input.take payload_len) ≠ checksum then
            .err (.failure .ChecksumMismatch)
          else
            match ci with
            | some ci =>
              if (input.take payload_len).length > 0 then
                .ok rest (.LongFrame control address ci (input.take payload_len))
              else
                .ok rest (.ControlFrame control address ci)
            | none => .ok rest (.ShortFrame control address)
        else .err (.failure .InvalidFormat)
  else .err (.incomplete (some (payload_len - input.length)))

/-- `Telegram::parse_payload`. The two unguarded `payload_len -= 1`
decrements underflow when `payload_len` is 0 resp. 1; the model renders the
underflow as `panicked`. -/
def parse_payload (input : List Nat) (payload_len : Nat) : PRes :=
  match input with
  | [] => .err (.incomplete (some 1))
  | c :: input =>
    match Control.tryFrom c with
    | .error _ => .err (.failure .InvalidFormat)
    | .ok control =>
      if payload_len = 0 then .panicked
      else
        match input with
        | [] => .err (.incomplete (some 1))
        | a :: input =>
          if payload_len - 1 = 0 then .panicked
          else
            if payload_len - 2 > 0 then
              match input with
              | [] => .err (.incomplete (some 1))
              | ci :: input =>
                finishPayload control (Address.fromByte a) (some ci)
                  (wadd (wadd (wadd 0 c) a) ci) (payload_len - 3) input
            else
              finishPayload control (Address.fromByte a) none
                (wadd (wadd 0 c) a) (payload_len - 2) input

/-- `Telegram::parse_single`: `tag([0xE5])`, errors mapped to
`InvalidStartCharacter`. -/
def parse_single (input : List Nat) : PRes :=
  match input with
  | [] => .err (.incomplete (some 1))
  | b :: rest =>
    if b = 0xE5 then .ok rest .SingleCharacter
    else .err (.error .InvalidStartCharacter)

/-- `Telegram::parse_short`: `tag([0x10])` then `parse_payload(input, 2)`. -/
def parse_short (input : List Nat) : PRes :=
  match input with
  | [] => .err (.incomplete (some 1))
  | b :: rest =>
    if b = 0x10 then parse_payload rest 2
    else .err (.error .InvalidStartCharacter)

/-- `Telegram::parse_long`: `tuple((tag([0x68]), u8, u8, tag([0x68])))` with
errors mapped to `InvalidStartCharacter`, the length-echo comparison, then
`parse_payload(input, payload_len)`. -/
def parse_long (input : List Nat) : PRes :=
  match input with
  | [] => .err (.incomplete (some 1))
  | b :: rest =>
    if b = 0x68 then
      match rest with
      | [] => .err (.incomplete (some 1))
      | payload_len :: rest =>
        match rest with
        | [] => .err (.incomplete (some 1))
        | payload_len_check :: rest =>
          match rest with
          | [] => .err (.incomplete (some 1))
          | b2 :: rest =>
            if b2 = 0x68 then
              if payload_len ≠ payload_len_check then
                .err (.error .InvalidStartCharacter)
              else parse_payload rest payload_len
            else .err (.error .InvalidStartCharacter)
    else .err (.error .InvalidStartCharacter)

/-- Result of `Telegram::parse` (`Result<(&[u8], Telegram), Error>`), with
the `panicked` outcome threaded through. -/
inductive ParseResult where
  | ok : List Nat → Telegram → ParseResult
  | err : Error → ParseResult
  | panicked : ParseResult
deriving DecidableEq, Repr

/-- The `map_err` (nom `Incomplete` → `Error::Incomplete`) plus `.finish()`
step at the end of `Telegram::parse`. -/
def toResult : PRes → ParseResult
  | .ok rest t => .ok rest t
  | .err (.error e) => .err e
  | .err (.failure e) => .err e
  | .err (.incomplete n) => .err (.Incomplete n)
  | .panicked => .panicked

/-- `Telegram::parse`: `alt((parse_single, parse_short, parse_long))`
(the next alternative is tried only on `Error`-level failures; with the
source's `ParseError` impl, `alt`'s final `append` keeps the last error),
then `map_err`/`finish`. -/
def parse (input : List Nat) : ParseResult :=
  toResult
    (match parse_single input with
     | .err (.error _) =>
       match parse_short input with
       | .err (.error _) => parse_long input
       | r => r
     | r => r)

instance : DecidableEq (Except Nat Control) := fun x y =>
  match x, y with
  | .ok a, .ok b => decidable_of_iff (a = b) (by simp)
  | .error a, .error b => decidable_of_iff (a = b) (by simp)
  | .ok _, .error _ => isFalse (by simp)
  | .error _, .ok _ => isFalse (by simp)

/-! ### Frame constructors for well-formed frames -/

/-- A well-formed short frame: start `0x10`, control, address, the wraparound
checksum of the two payload bytes, stop `0x16`. -/
def shortFrame (c a : Nat) : List Nat :=
  [0x10, c, a, wadd (wadd 0 c) a, 0x16]

/-- A well-formed long/control frame: start `0x68`, the payload length
`ud.length + 3` declared twice, the repeated start, control, address,
control-information, user data, the wraparound checksum of the payload
bytes, stop `0x16`. With `ud = []` this is the control-frame encoding. -/
def longFrame (c a ci : Nat) (ud : List Nat) : List Nat :=
  0x68 :: (ud.length + 3) :: (ud.length + 3) :: 0x68 :: c :: a :: ci ::
    (ud ++ [checksumFold (wadd (wadd (wadd 0 c) a) ci) ud, 0x16])

/-! ### Helper lemmas -/

theorem finishPayload_ne_error (control : Control) (address : Address)
    (ci : Option Nat) (cks payload_len : Nat) (input : List Nat) (e : Error) :
    finishPayload control address ci cks payload_len input ≠ .err (.error e) := by
  unfold finishPayload
  repeat' split
  all_goals simp

theorem parse_payload_ne_error (input : List Nat) (payload_len : Nat) (e : Error) :
    parse_payload input payload_len ≠ .err (.error e) := by
  unfold parse_payload
  repeat' split
  all_goals first
    | apply finishPayload_ne_error
    | simp

theorem parse_cons_short (rest : List Nat) :
    parse (0x10 :: rest) = toResult (parse_payload rest 2) := by
  have h := parse_payload_ne_error rest 2
  unfold parse
  rw [show parse_single (0x10 :: rest) = .err (.error .InvalidStartCharacter) by
        simp [parse_single],
      show parse_short (0x10 :: rest) = parse_payload rest 2 by simp [parse_short]]
  cases hp : parse_payload rest 2 with
  | ok r t => rfl
  | panicked => rfl
  | err e =>
    cases e with
    | error e => exact absurd hp (h e)
    | failure e => rfl
    | incomplete n => rfl

theorem parse_cons_long (L : Nat) (rest : List Nat) :
    parse (0x68 :: L :: L :: 0x68 :: rest) = toResult (parse_payload rest L) := by
  unfold parse
  rw [show parse_single (0x68 :: L :: L :: 0x68 :: rest)
        = .err (.error .InvalidStartCharacter) by simp [parse_single],
      show parse_short (0x68 :: L :: L :: 0x68 :: rest)
        = .err (.error .InvalidStartCharacter) by simp [parse_short],
      show parse_long (0x68 :: L :: L :: 0x68 :: rest) = parse_payload rest L by
        simp [parse_long]]

theorem parse_payload_cons2 (c a : Nat) (rest : List Nat) (ctrl : Control)
    (hc : Control.tryFrom c = .ok ctrl) :
    parse_payload (c :: a :: rest) 2 =
      finishPayload ctrl (Address.fromByte a) none (wadd (wadd 0 c) a) 0 rest := by
  simp [parse_payload, hc]

theorem parse_payload_cons3 (c a ci : Nat) (rest : List Nat) (n : Nat) (ctrl : Control)
    (hc : Control.tryFrom c = .ok ctrl) :
    parse_payload (c :: a :: ci :: rest) (n + 3) =
      finishPayload ctrl (Address.fromByte a) (some ci)
        (wadd (wadd (wadd 0 c) a) ci) n rest := by
  simp [parse_payload, hc]

theorem finishPayload_full (ctrl : Control) (addr : Address) (ci : Option Nat)
    (cks k s : Nat) (payload rest : List Nat) :
    finishPayload ctrl addr ci cks payload.length (payload ++ k :: s :: rest) =
      (if s = 0x16 then
        if checksumFold cks payload ≠ k then .err (.failure .ChecksumMismatch)
        else
          match ci with
          | some ci =>
            if payload.length > 0 then .ok rest (.LongFrame ctrl addr ci payload)
            else .ok rest (.ControlFrame ctrl addr ci)
          | none => .ok rest (.ShortFrame ctrl addr)
       else .err (.failure .InvalidFormat)) := by
  unfold finishPayload
  rw [List.drop_left, List.take_left]
  simp [List.length_append]

theorem parse_short_general (c a k s : Nat) (rest : List Nat) (ctrl : Control)
    (hc : Control.tryFrom c = .ok ctrl) :
    parse (0x10 :: c :: a :: k :: s :: rest) =
      (if s = 0x16 then
        if wadd (wadd 0 c) a ≠ k then .err .ChecksumMismatch
        else .ok rest (.ShortFrame ctrl (Address.fromByte a))
       else .err .InvalidFormat) := by
  rw [parse_cons_short, parse_payload_cons2 c a _ ctrl hc]
  have h2 := finishPayload_full ctrl (Address.fromByte a) none (wadd (wadd 0 c) a)
    k s [] rest
  simp only [List.nil_append, List.length_nil] at h2
  rw [h2]
  by_cases hs : s = 0x16 <;> by_cases hk : wadd (wadd 0 c) a = k <;>
    simp [hs, hk, toResult, checksumFold]

theorem parse_long_general (c a ci k s : Nat) (ud rest : List Nat) (ctrl : Control)
    (hc : Control.tryFrom c = .ok ctrl) :
    parse (0x68 :: (ud.length + 3) :: (ud.length + 3) :: 0x68 :: c :: a :: ci ::
        (ud ++ k :: s :: rest)) =
      (if s = 0x16 then
        if checksumFold (wadd (wadd (wadd 0 c) a) ci) ud ≠ k then
          .err .ChecksumMismatch
        else if ud.length > 0 then
          .ok rest (.LongFrame ctrl (Address.fromByte a) ci ud)
        else .ok rest (.ControlFrame ctrl (Address.fromByte a) ci)
       else .err .InvalidFormat) := by
  rw [parse_cons_long, parse_payload_cons3 c a ci _ ud.length ctrl hc,
      finishPayload_full]
  by_cases hs : s = 0x16 <;>
    by_cases hk : checksumFold (wadd (wadd (wadd 0 c) a) ci) ud = k <;>
    by_cases hu : ud.length > 0 <;>
    simp [hs, hk, hu, toResult]

theorem finishPayload_drop_form (control : Control) (address : Address)
    (ci : Option Nat) (cks payload_len : Nat) (input : List Nat)
    (k s : Nat) (rest2 : List Nat)
    (hle : payload_len ≤ input.length)
    (hdrop : input.drop payload_len = k :: s :: rest2) :
    finishPayload control address ci cks payload_len input =
      (if s = 0x16 then
        if checksumFold cks (input.take payload_len) ≠ k then
          .err (.failure .ChecksumMismatch)
        else
          match ci with
          | some x =>
            if (input.take payload_len).length > 0 then
              .ok rest2 (.LongFrame control address x (input.take payload_len))
            else .ok rest2 (.ControlFrame control address x)
          | none => .ok rest2 (.ShortFrame control address)
       else .err (.failure .InvalidFormat)) := by
  unfold finishPayload
  rw [if_pos hle, hdrop]

theorem finishPayload_ok_shape (control : Control) (address : Address)
    (ci : Option Nat) (cks payload_len : Nat) (input rest : List Nat)
    (t : Telegram)
    (h : finishPayload control address ci cks payload_len input = .ok rest t) :
    (ci = none → t = .ShortFrame control address)
  ∧ (∀ x, ci = some x →
      (payload_len = 0 → t = .ControlFrame control address x)
    ∧ (0 < payload_len →
        ∃ ud, ud.length = payload_len ∧ t = .LongFrame control address x ud)) := by
  by_cases hle : payload_len ≤ input.length
  case neg =>
    unfold finishPayload at h
    rw [if_neg hle] at h
    simp at h
  have hlen : (input.take payload_len).length = payload_len := by
    rw [List.length_take]
    omega
  rcases hdrop : input.drop payload_len with _ | ⟨k, rest1⟩
  · unfold finishPayload at h
    rw [if_pos hle, hdrop] at h
    simp at h
  rcases rest1 with _ | ⟨s, rest2⟩
  · unfold finishPayload at h
    rw [if_pos hle, hdrop] at h
    simp at h
  rw [finishPayload_drop_form control address ci cks payload_len input k s rest2
        hle hdrop] at h
  by_cases hs : s = 0x16
  case neg =>
    rw [if_neg hs] at h
    simp at h
  rw [if_pos hs] at h
  by_cases hck : checksumFold cks (input.take payload_len) ≠ k
  case pos =>
    rw [if_pos hck] at h
    simp at h
  rw [if_neg hck] at h
  rcases ci with _ | x0
  · replace h : PRes.ok rest2 (.ShortFrame control address) = .ok rest t := h
    simp only [PRes.ok.injEq] at h
    exact ⟨fun _ => h.2.symm, fun x hx => by simp at hx⟩
  · replace h :
        (if (input.take payload_len).length > 0 then
          PRes.ok rest2 (.LongFrame control address x0 (input.take payload_len))
        else .ok rest2 (.ControlFrame control address x0)) = .ok rest t := h
    by_cases hp : (input.take payload_len).length > 0
    · rw [if_pos hp] at h
      simp only [PRes.ok.injEq] at h
      refine ⟨by simp, fun x hx => ?_⟩
      obtain rfl : x0 = x := by injection hx
      refine ⟨fun h0 => by omega, fun _ => ?_⟩
      exact ⟨input.take payload_len, hlen, h.2.symm⟩
    · rw [if_neg hp] at h
      simp only [PRes.ok.injEq] at h
      refine ⟨by simp, fun x hx => ?_⟩
      obtain rfl : x0 = x := by injection hx
      exact ⟨fun _ => h.2.symm, fun hpos => by omega⟩

theorem parse_payload_one (c : Nat) (L : Nat) (ctrl : Control)
    (hc : Control.tryFrom c = .ok ctrl) (hL : L ≠ 0) :
    parse_payload [c] L = .err (.incomplete (some 1)) := by
  simp [parse_payload, hc, hL]

theorem parse_payload_two (c a : Nat) (n : Nat) (ctrl : Control)
    (hc : Control.tryFrom c = .ok ctrl) :
    parse_payload [c, a] (n + 3) = .err (.incomplete (some 1)) := by
  simp [parse_payload, hc]

/-! ### Claim theorems -/

/-- C1: for every well-formed short, control, or long frame (correct
duplicated length bytes for long frames, a control byte among the eleven
recognized patterns, checksum byte equal to the 8-bit wraparound sum of the
payload bytes, stop byte 0x16), possibly followed by arbitrary extra bytes,
`parse` succeeds, returns the bytes after the frame as the remainder, and
the returned telegram's control, address, control-information and user-data
fields equal exactly the fields encoded in the input; the user data equals
the exact user-data byte list of the input. -/
theorem wellformed_roundtrip (c a ci : Nat) (ud extra : List Nat) (ctrl : Control)
    (hc : Control.tryFrom c = .ok ctrl) (hlen : ud.length + 3 ≤ 255) :
    parse (shortFrame c a ++ extra)
      = .ok extra (.ShortFrame ctrl (Address.fromByte a))
  ∧ parse (longFrame c a ci [] ++ extra)
      = .ok extra (.ControlFrame ctrl (Address.fromByte a) ci)
  ∧ (ud ≠ [] → parse (longFrame c a ci ud ++ extra)
      = .ok extra (.LongFrame ctrl (Address.fromByte a) ci ud)) := by
  refine ⟨?_, ?_, fun hud => ?_⟩
  · have h := parse_short_general c a (wadd (wadd 0 c) a) 0x16 extra ctrl hc
    simpa [shortFrame] using h
  · have h := parse_long_general c a ci
      (checksumFold (wadd (wadd (wadd 0 c) a) ci) []) 0x16 [] extra ctrl hc
    simpa [longFrame] using h
  · have h := parse_long_general c a ci
      (checksumFold (wadd (wadd (wadd 0 c) a) ci) ud) 0x16 ud extra ctrl hc
    have hpos : ud.length > 0 := List.length_pos.mpr hud
    simp only [longFrame, List.cons_append, List.append_assoc, List.cons_append,
      List.nil_append] at *
    rw [h]
    simp [hpos]

theorem wellformed_roundtrip_witness :
    Control.tryFrom 0x53 = .ok (.SndUd false)
  ∧ ([1, 2] : List Nat).length + 3 ≤ 255
  ∧ (parse (shortFrame 0x53 8 ++ [7])
        = .ok [7] (.ShortFrame (.SndUd false) (Address.fromByte 8))
    ∧ parse (longFrame 0x53 8 0x11 [] ++ [7])
        = .ok [7] (.ControlFrame (.SndUd false) (Address.fromByte 8) 0x11)
    ∧ (([1, 2] : List Nat) ≠ [] → parse (longFrame 0x53 8 0x11 [1, 2] ++ [7])
        = .ok [7] (.LongFrame (.SndUd false) (Address.fromByte 8) 0x11 [1, 2]))) :=
  ⟨by decide, by decide,
    wellformed_roundtrip 0x53 8 0x11 [1, 2] [7] (.SndUd false) (by decide) (by decide)⟩

/-- C2: the claim says a long/control frame with declared length 0 or 1
returns an Incomplete or InvalidFormat error with no arithmetic underflow of
the payload length. In the code, `payload_len -= 1` underflows (`usize`):
with declared length 0 the decrement after the control byte hits 0, with
declared length 1 the decrement after the address byte does; the model's
`panicked` outcome records that underflow, so these inputs do not produce
Incomplete or InvalidFormat. -/
theorem short_declared_length_underflow :
    parse [0x68, 0, 0, 0x68, 0x40] = .panicked
  ∧ parse [0x68, 1, 1, 0x68, 0x40, 0] = .panicked := by decide

/-- C3 (amended): stop-character verification precedes checksum
verification. For a frame whose start pattern and payload bytes parse
successfully and whose checksum byte is wrong, `parse` fails with
ChecksumMismatch when the byte in the stop-character position is 0x16, and
with InvalidFormat when that byte is not 0x16. -/
theorem stop_checked_before_checksum (c a ci k s : Nat) (ud : List Nat)
    (ctrl : Control) (hc : Control.tryFrom c = .ok ctrl)
    (hlen : ud.length + 3 ≤ 255)
    (hks : wadd (wadd 0 c) a ≠ k)
    (hkl : checksumFold (wadd (wadd (wadd 0 c) a) ci) ud ≠ k) :
    (s = 0x16 →
      parse [0x10, c, a, k, s] = .err .ChecksumMismatch
    ∧ parse (0x68 :: (ud.length + 3) :: (ud.length + 3) :: 0x68 :: c :: a :: ci ::
        (ud ++ [k, s])) = .err .ChecksumMismatch)
  ∧ (s ≠ 0x16 →
      parse [0x10, c, a, k, s] = .err .InvalidFormat
    ∧ parse (0x68 :: (ud.length + 3) :: (ud.length + 3) :: 0x68 :: c :: a :: ci ::
        (ud ++ [k, s])) = .err .InvalidFormat) := by
  have h1 := parse_short_general c a k s [] ctrl hc
  have h2 := parse_long_general c a ci k s ud [] ctrl hc
  constructor <;> intro hs <;> constructor <;>
    simp_all [hks, hkl]

theorem stop_checked_before_checksum_witness :
    Control.tryFrom 0x40 = .ok .SndNke
  ∧ ([] : List Nat).length + 3 ≤ 255
  ∧ wadd (wadd 0 0x40) 0 ≠ 0x41
  ∧ checksumFold (wadd (wadd (wadd 0 0x40) 0) 5) [] ≠ 0x41
  ∧ ((22 = 0x16 →
      parse [0x10, 0x40, 0, 0x41, 22] = .err .ChecksumMismatch
    ∧ parse (0x68 :: (([] : List Nat).length + 3) :: (([] : List Nat).length + 3) ::
        0x68 :: 0x40 :: 0 :: 5 :: (([] : List Nat) ++ [0x41, 22]))
        = .err .ChecksumMismatch)
  ∧ (22 ≠ 0x16 →
      parse [0x10, 0x40, 0, 0x41, 22] = .err .InvalidFormat
    ∧ parse (0x68 :: (([] : List Nat).length + 3) :: (([] : List Nat).length + 3) ::
        0x68 :: 0x40 :: 0 :: 5 :: (([] : List Nat) ++ [0x41, 22]))
        = .err .InvalidFormat)) :=
  ⟨by decide, by decide, by decide, by decide,
    stop_checked_before_checksum 0x40 0 5 0x41 22 [] .SndNke
      (by decide) (by decide) (by decide) (by decide)⟩

/-- C3 counterexample: a short frame whose checksum byte is wrong and whose
stop-character byte is present but not 0x16 fails with InvalidFormat, not
ChecksumMismatch — the code verifies the stop character first, refuting the
claimed checksum-before-stop ordering. -/
theorem checksum_order_counterexample :
    parse [0x10, 0x40, 0, 0x41, 0] = .err .InvalidFormat
  ∧ parse [0x10, 0x40, 0, 0x41, 0] ≠ .err .ChecksumMismatch := by decide

/-- C5 (amended): for every input whose first byte is 0x68, whose two length
bytes differ, and which contains at least four bytes, `parse` fails with
InvalidStartCharacter regardless of all later bytes (the checksum included);
with fewer than four bytes such an input fails with Incomplete instead. -/
theorem length_mismatch_invalid_start (l1 l2 b : Nat) (rest : List Nat)
    (h : l1 ≠ l2) :
    parse (0x68 :: l1 :: l2 :: b :: rest) = .err .InvalidStartCharacter := by
  by_cases hb : b = 0x68 <;>
    simp [parse, parse_single, parse_short, parse_long, toResult, hb, h]

theorem length_mismatch_invalid_start_witness :
    (0 : Nat) ≠ 1 ∧ parse [0x68, 0, 1, 0x68, 9] = .err .InvalidStartCharacter :=
  ⟨by decide, length_mismatch_invalid_start 0 1 0x68 [9] (by decide)⟩

/-- C5 counterexample: the input `[0x68, 0, 1]` begins with 0x68 and its two
length bytes differ, but `parse` fails with Incomplete (the repeated start
marker has not arrived yet), not with InvalidStartCharacter. -/
theorem length_mismatch_counterexample :
    parse [0x68, 0, 1] = .err (.Incomplete (some 1))
  ∧ parse [0x68, 0, 1] ≠ .err .InvalidStartCharacter := by decide

/-- C6: flipping any single bit of the checksum byte of an otherwise
well-formed frame makes `parse` fail with ChecksumMismatch (and no other
outcome), for short, control (`ud = []`) and long frames alike. -/
theorem checksum_bitflip_mismatch (c a ci i : Nat) (ud : List Nat)
    (ctrl : Control) (hc : Control.tryFrom c = .ok ctrl) (hi : i < 8)
    (hlen : ud.length + 3 ≤ 255) :
    parse [0x10, c, a, wadd (wadd 0 c) a ^^^ 2 ^ i, 0x16]
      = .err .ChecksumMismatch
  ∧ parse (0x68 :: (ud.length + 3) :: (ud.length + 3) :: 0x68 :: c :: a :: ci ::
      (ud ++ [checksumFold (wadd (wadd (wadd 0 c) a) ci) ud ^^^ 2 ^ i, 0x16]))
      = .err .ChecksumMismatch := by
  have hx : ∀ x : Nat, x ≠ x ^^^ 2 ^ i := by
    intro x h
    have h2 := congrArg (fun y => x ^^^ y) h
    simp only [Nat.xor_self, Nat.xor_cancel_left] at h2
    exact absurd h2.symm (Nat.pos_iff_ne_zero.mp (pow_pos (by norm_num) i))
  have h1 := parse_short_general c a (wadd (wadd 0 c) a ^^^ 2 ^ i) 0x16 [] ctrl hc
  have h2 := parse_long_general c a ci
    (checksumFold (wadd (wadd (wadd 0 c) a) ci) ud ^^^ 2 ^ i) 0x16 ud [] ctrl hc
  constructor <;> simp_all [hx _]

theorem checksum_bitflip_mismatch_witness :
    Control.tryFrom 0x40 = .ok .SndNke ∧ (3 : Nat) < 8
  ∧ ([9] : List Nat).length + 3 ≤ 255
  ∧ (parse [0x10, 0x40, 1, wadd (wadd 0 0x40) 1 ^^^ 2 ^ 3, 0x16]
      = .err .ChecksumMismatch
  ∧ parse (0x68 :: (([9] : List Nat).length + 3) :: (([9] : List Nat).length + 3) ::
      0x68 :: 0x40 :: 1 :: 2 ::
      ([9] ++ [checksumFold (wadd (wadd (wadd 0 0x40) 1) 2) [9] ^^^ 2 ^ 3, 0x16]))
      = .err .ChecksumMismatch) :=
  ⟨by decide, by decide, by decide,
    checksum_bitflip_mismatch 0x40 1 2 3 [9] .SndNke (by decide) (by decide) (by decide)⟩

set_option maxRecDepth 4000 in
/-- C8: address classification is total on the byte range: 0 is
Unconfigured, 1..=250 is Configured with that value, 251 and 252 are
Reserved, 253 is AddressingPerformedInNetworkLayer, 254 and 255 are
Broadcast. -/
theorem address_classification : ∀ b : Nat, b < 256 →
    ((b = 0 → Address.fromByte b = .Unconfigured)
  ∧ (1 ≤ b ∧ b ≤ 250 → Address.fromByte b = .Configured b)
  ∧ ((b = 251 ∨ b = 252) → Address.fromByte b = .Reserved)
  ∧ (b = 253 → Address.fromByte b = .AddressingPerformedInNetworkLayer)
  ∧ ((b = 254 ∨ b = 255) → Address.fromByte b = .Broadcast)) := by decide

theorem address_classification_witness :
    (250 : Nat) < 256
  ∧ (((250 : Nat) = 0 → Address.fromByte 250 = .Unconfigured)
  ∧ (1 ≤ (250 : Nat) ∧ (250 : Nat) ≤ 250 → Address.fromByte 250 = .Configured 250)
  ∧ (((250 : Nat) = 251 ∨ (250 : Nat) = 252) → Address.fromByte 250 = .Reserved)
  ∧ ((250 : Nat) = 253 →
      Address.fromByte 250 = .AddressingPerformedInNetworkLayer)
  ∧ (((250 : Nat) = 254 ∨ (250 : Nat) = 255) → Address.fromByte 250 = .Broadcast)) :=
  ⟨by decide, address_classification 250 (by decide)⟩

set_option maxRecDepth 4000 in
/-- C9: the eleven recognized control patterns map to exactly the documented
variants and flags (fcb is bit 5 of SndUd/ReqUd1/ReqUd2 patterns; acd is
bit 5 and dfc is bit 4 of RspUd patterns), the patterns are pairwise
distinct, and every other byte yields an error carrying that byte. -/
theorem control_classification :
    Control.tryFrom 0x40 = .ok .SndNke
  ∧ (∀ b ∈ ([0x53, 0x73] : List Nat), Control.tryFrom b = .ok (.SndUd (b.testBit 5)))
  ∧ (∀ b ∈ ([0x5B, 0x7B] : List Nat), Control.tryFrom b = .ok (.ReqUd1 (b.testBit 5)))
  ∧ (∀ b ∈ ([0x5A, 0x7A] : List Nat), Control.tryFrom b = .ok (.ReqUd2 (b.testBit 5)))
  ∧ (∀ b ∈ ([0x08, 0x18, 0x28, 0x38] : List Nat),
      Control.tryFrom b = .ok (.RspUd (b.testBit 5) (b.testBit 4)))
  ∧ ([0x40, 0x53, 0x73, 0x5B, 0x7B, 0x5A, 0x7A, 0x08, 0x18, 0x28, 0x38] :
      List Nat).Nodup
  ∧ (∀ b : Nat, b < 256 →
      b ∉ ([0x40, 0x53, 0x73, 0x5B, 0x7B, 0x5A, 0x7A, 0x08, 0x18, 0x28, 0x38] :
        List Nat) →
      Control.tryFrom b = .error b) := by decide

theorem control_classification_witness :
    Control.tryFrom 7 = .error 7 :=
  control_classification.2.2.2.2.2.2 7 (by decide) (by decide)

/-- C10: for every input whose first byte is 0xE5, `parse` succeeds with
SingleCharacter and returns all bytes after the first as the unconsumed
remainder, whatever and however many they are. -/
theorem single_character_any_tail (rest : List Nat) :
    parse (0xE5 :: rest) = .ok rest .SingleCharacter := rfl

theorem parse_payload_cons_form (c a : Nat) (input : List Nat) (L : Nat)
    (ctrl : Control) (hc : Control.tryFrom c = .ok ctrl) :
    parse_payload (c :: a :: input) L =
      (if L = 0 then .panicked
       else if L - 1 = 0 then .panicked
       else if L - 2 > 0 then
         match input with
         | [] => .err (.incomplete (some 1))
         | x :: input2 =>
           finishPayload ctrl (Address.fromByte a) (some x)
             (wadd (wadd (wadd 0 c) a) x) (L - 3) input2
       else
         finishPayload ctrl (Address.fromByte a) none
           (wadd (wadd 0 c) a) (L - 2) input) := by
  simp only [parse_payload, hc]

/-- C7: frame classification is determined solely by the declared payload
length L: a successful `parse_payload` with L = 2 yields a ShortFrame, with
L = 3 a ControlFrame, and with L >= 4 a LongFrame; the three shapes are
mutually exclusive over every successful parse. -/
theorem classification_by_length (input : List Nat) (L : Nat)
    (rest : List Nat) (t : Telegram)
    (h : parse_payload input L = .ok rest t) :
    ((L = 2) ↔ ∃ c a, t = .ShortFrame c a)
  ∧ ((L = 3) ↔ ∃ c a x, t = .ControlFrame c a x)
  ∧ ((4 ≤ L) ↔ ∃ c a x ud, t = .LongFrame c a x ud) := by
  rcases input with _ | ⟨c, input⟩
  · simp [parse_payload] at h
  rcases input with _ | ⟨a, input⟩
  · by_cases hL0 : L = 0
    · rw [hL0] at h
      simp [parse_payload] at h
      rcases hct : Control.tryFrom c with cb | ctrl <;> simp [hct] at h
    · rcases hct : Control.tryFrom c with cb | ctrl <;>
        simp [parse_payload, hct, hL0] at h
  rcases hct : Control.tryFrom c with cb | ctrl
  · simp [parse_payload, hct] at h
  rw [parse_payload_cons_form c a input L ctrl hct] at h
  by_cases hL0 : L = 0
  · rw [if_pos hL0] at h
    simp at h
  rw [if_neg hL0] at h
  by_cases hL1 : L - 1 = 0
  · rw [if_pos hL1] at h
    simp at h
  rw [if_neg hL1] at h
  by_cases hgt : L - 2 > 0
  · rw [if_pos hgt] at h
    rcases input with _ | ⟨x, input2⟩
    · replace h : PRes.err (.incomplete (some 1)) = .ok rest t := h
      simp at h
    replace h : finishPayload ctrl (Address.fromByte a) (some x)
        (wadd (wadd (wadd 0 c) a) x) (L - 3) input2 = .ok rest t := h
    obtain ⟨-, hsome⟩ := finishPayload_ok_shape _ _ _ _ _ _ _ _ h
    obtain ⟨hctrlf, hlong⟩ := hsome x rfl
    by_cases hL4 : 4 ≤ L
    · obtain ⟨ud, hudlen, ht⟩ := hlong (by omega)
      subst ht
      exact ⟨iff_of_false (by omega) (by simp),
             iff_of_false (by omega) (by simp),
             iff_of_true hL4 ⟨ctrl, Address.fromByte a, x, ud, rfl⟩⟩
    · have hL3 : L = 3 := by omega
      have ht := hctrlf (by omega)
      subst ht
      exact ⟨iff_of_false (by omega) (by simp),
             iff_of_true hL3 ⟨ctrl, Address.fromByte a, x, rfl⟩,
             iff_of_false (by omega) (by simp)⟩
  · rw [if_neg hgt] at h
    obtain ⟨hshort, -⟩ := finishPayload_ok_shape _ _ _ _ _ _ _ _ h
    have ht := hshort rfl
    subst ht
    exact ⟨iff_of_true (by omega) ⟨ctrl, Address.fromByte a, rfl⟩,
           iff_of_false (by omega) (by simp),
           iff_of_false (by omega) (by simp)⟩

theorem classification_by_length_witness :
    ((2 : Nat) = 2 ↔ ∃ c a,
      Telegram.ShortFrame .SndNke (Address.fromByte 0) = .ShortFrame c a)
  ∧ ((2 : Nat) = 3 ↔ ∃ c a x,
      Telegram.ShortFrame .SndNke (Address.fromByte 0) = .ControlFrame c a x)
  ∧ ((4 ≤ (2 : Nat)) ↔ ∃ c a x ud,
      Telegram.ShortFrame .SndNke (Address.fromByte 0) = .LongFrame c a x ud) :=
  classification_by_length [0x40, 0, 0x40, 0x16] 2 []
    (.ShortFrame .SndNke (Address.fromByte 0)) (by decide)

/-- C4: for every well-formed frame (single-character, short, control — as
`longFrame` with `ud = []` — or long) and every proper prefix of it,
including the empty prefix, `parse` fails with an Incomplete error, never
with InvalidFormat and never with ChecksumMismatch. -/
theorem truncation_incomplete (c a ci n : Nat) (ud : List Nat) (ctrl : Control)
    (hc : Control.tryFrom c = .ok ctrl) (hlen : ud.length + 3 ≤ 255) :
    (n < 1 → ∃ m, parse (List.take n [0xE5]) = .err (.Incomplete m))
  ∧ (n < 5 → ∃ m, parse ((shortFrame c a).take n) = .err (.Incomplete m))
  ∧ (n < 9 + ud.length →
      ∃ m, parse ((longFrame c a ci ud).take n) = .err (.Incomplete m)) := by
  refine ⟨fun hn => ?_, fun hn => ?_, fun hn => ?_⟩
  · obtain rfl : n = 0 := by omega
    exact ⟨some 1, by decide⟩
  · interval_cases n
    · exact ⟨some 1, rfl⟩
    · exact ⟨some 1, rfl⟩
    · refine ⟨some 1, ?_⟩
      rw [show (shortFrame c a).take 2 = [0x10, c] from rfl, parse_cons_short]
      simp [parse_payload, hc, toResult]
    · refine ⟨some 1, ?_⟩
      rw [show (shortFrame c a).take 3 = [0x10, c, a] from rfl, parse_cons_short,
          parse_payload_cons2 c a [] ctrl hc]
      rfl
    · refine ⟨some 1, ?_⟩
      rw [show (shortFrame c a).take 4 = [0x10, c, a, wadd (wadd 0 c) a] from rfl,
          parse_cons_short, parse_payload_cons2 c a [wadd (wadd 0 c) a] ctrl hc]
      rfl
  · rcases n with _ | _ | _ | _ | _ | _ | _ | n
    · exact ⟨some 1, rfl⟩
    · exact ⟨some 1, rfl⟩
    · exact ⟨some 1, rfl⟩
    · exact ⟨some 1, rfl⟩
    · refine ⟨some 1, ?_⟩
      rw [show (longFrame c a ci ud).take 4
            = [0x68, ud.length + 3, ud.length + 3, 0x68] from rfl, parse_cons_long]
      rfl
    · refine ⟨some 1, ?_⟩
      rw [show (longFrame c a ci ud).take 5
            = 0x68 :: (ud.length + 3) :: (ud.length + 3) :: 0x68 :: [c] from rfl,
          parse_cons_long, parse_payload_one c (ud.length + 3) ctrl hc (by omega)]
      rfl
    · refine ⟨some 1, ?_⟩
      rw [show (longFrame c a ci ud).take 6
            = 0x68 :: (ud.length + 3) :: (ud.length + 3) :: 0x68 :: [c, a] from rfl,
          parse_cons_long, parse_payload_two c a ud.length ctrl hc]
      rfl
    · have h7 : (longFrame c a ci ud).take (n + 7)
          = 0x68 :: (ud.length + 3) :: (ud.length + 3) :: 0x68 :: c :: a :: ci ::
            ((ud ++ [checksumFold (wadd (wadd (wadd 0 c) a) ci) ud, 0x16]).take n) := by
        show ([0x68, ud.length + 3, ud.length + 3, 0x68, c, a, ci] ++
            (ud ++ [checksumFold (wadd (wadd (wadd 0 c) a) ci) ud, 0x16])).take (n + 7) = _
        rw [List.take_append_eq_append_take,
            List.take_of_length_le (l := [0x68, ud.length + 3, ud.length + 3, 0x68, c, a, ci])
              (by simp)]
        simp
      rcases Nat.lt_trichotomy n ud.length with hcase | hcase | hcase
      · refine ⟨some (ud.length - n), ?_⟩
        rw [h7, List.take_append_of_le_length (by omega), parse_cons_long,
            parse_payload_cons3 c a ci _ ud.length ctrl hc]
        unfold finishPayload
        rw [if_neg (by rw [List.length_take]; omega)]
        rw [List.length_take, Nat.min_eq_left (by omega)]
        rfl
      · subst hcase
        refine ⟨some 1, ?_⟩
        rw [h7, List.take_left, parse_cons_long,
            parse_payload_cons3 c a ci _ ud.length ctrl hc]
        unfold finishPayload
        rw [if_pos (le_refl _), List.drop_length]
        rfl
      · obtain rfl : n = ud.length + 1 := by omega
        refine ⟨some 1, ?_⟩
        have htk : (ud ++ [checksumFold (wadd (wadd (wadd 0 c) a) ci) ud, 0x16]).take
              (ud.length + 1)
            = ud ++ [checksumFold (wadd (wadd (wadd 0 c) a) ci) ud] := by
          rw [List.take_append_eq_append_take,
              List.take_of_length_le (show ud.length ≤ ud.length + 1 by omega)]
          simp
        rw [h7, htk, parse_cons_long, parse_payload_cons3 c a ci _ ud.length ctrl hc]
        unfold finishPayload
        rw [if_pos (by simp), List.drop_left]
        rfl

theorem truncation_incomplete_witness :
    Control.tryFrom 0x40 = .ok .SndNke
  ∧ ([5] : List Nat).length + 3 ≤ 255
  ∧ (((3 : Nat) < 1 → ∃ m, parse (List.take 3 [0xE5]) = .err (.Incomplete m))
   ∧ ((3 : Nat) < 5 → ∃ m, parse ((shortFrame 0x40 9).take 3) = .err (.Incomplete m))
   ∧ ((3 : Nat) < 9 + ([5] : List Nat).length →
       ∃ m, parse ((longFrame 0x40 9 7 [5]).take 3) = .err (.Incomplete m))) :=
  ⟨by decide, by decide,
    truncation_incomplete 0x40 9 7 3 [5] .SndNke (by decide) (by decide)⟩

end Mbus
